import Mathlib

/-!
Verification of the connect-to-forge conversion tool (src/src/index.ts, the
revision whose engine is the function convertToForgemanifest).

The tool downloads an Atlassian Connect descriptor, converts it into a Forge
manifest, optionally deep-merges a pre-existing manifest file into the result
(via the deepmerge npm package), and writes the result out as YAML.

The embedding below models:
  - JavaScript/JSON values as the inductive type JValue (objects are ordered
    association lists, as JavaScript objects preserve insertion order);
  - the ConnectDescriptor and ForgeManifest typings of index.ts;
  - genDefaultManifest and convertToForgemanifest, statement for statement;
  - the default behaviour of the deepmerge library used at the merge step;
  - the state of the (aliased, hence mutated) input descriptor after
    conversion.

JavaScript operations that can throw a TypeError are modelled in the Except
monad, so that the no-throw claim is a real statement.
-/

/-- A JSON/JavaScript value.  An object is an ordered list of key/value pairs
(JavaScript objects preserve property insertion order); null models both the
JSON null and an absent/undefined value where one can occur. -/
inductive JValue where
  | str : String → JValue
  | num : Int → JValue
  | bool : Bool → JValue
  | null : JValue
  | arr : List JValue → JValue
  | obj : List (String × JValue) → JValue
deriving Repr

/-- Property lookup in an object field list: the first binding wins, as in a
JavaScript object (which cannot hold duplicate keys). -/
def lookupField (fs : List (String × JValue)) (k : String) : Option JValue :=
  match fs with
  | [] => none
  | (k2, v) :: rest => if k2 = k then some v else lookupField rest k

/-- JavaScript property assignment obj[k] = v on an object represented as a
field list: an existing key keeps its position and has its value replaced, a
new key is appended at the end. -/
def jsInsert (fs : List (String × JValue)) (k : String) (v : JValue) :
    List (String × JValue) :=
  if (lookupField fs k).isSome then
    fs.map (fun kv => if kv.1 = k then (k, v) else kv)
  else
    fs ++ [(k, v)]

/-- A sequence of JavaScript property assignments, in order. -/
def jsInsertAll (base : List (String × JValue)) (kvs : List (String × JValue)) :
    List (String × JValue) :=
  kvs.foldl (fun fs kv => jsInsert fs kv.1 kv.2) base

/-- Array.isArray. -/
def JValue.isArr : JValue → Bool
  | .arr _ => true
  | _ => false

/-- isPresent from the ts-is-present package: the value is neither undefined
nor null. -/
def jsIsPresent : JValue → Bool
  | .null => false
  | _ => true

/-- The ConnectDescriptor interface of index.ts.  Fields typed with a mapping
or object type are JValue objects; optional fields (and fields the code
guards with isPresent before using) are Options, none standing for an absent
or null field. -/
structure ConnectDescriptor where
  name : String
  key : String
  baseUrl : String
  scopes : Option (List String)
  lifecycle : Option (List (String × String))
  modules : List (String × JValue)
  translations : Option JValue
  regionBaseUrls : Option JValue
  cloudAppMigration : Option JValue
deriving Repr

/-- app.connect of the ForgeManifest interface.  authentication is optional
and absent until the engine assigns it. -/
structure AppConnect where
  key : String
  authentication : Option String
  remote : String
deriving Repr

/-- app of the ForgeManifest interface. -/
structure AppSection where
  id : String
  connect : AppConnect
deriving Repr

/-- An element of remotes in the ForgeManifest interface. -/
structure RemoteEntry where
  key : String
  baseUrl : String
deriving Repr

/-- permissions of the ForgeManifest interface. -/
structure Permissions where
  scopes : List String
deriving Repr

/-- The ForgeManifest interface of index.ts.  connectModules is a
Record of string to any, kept as a JValue object field list. -/
structure ForgeManifest where
  app : AppSection
  remotes : List RemoteEntry
  connectModules : List (String × JValue)
  permissions : Permissions
deriving Repr

/-- genDefaultManifest of index.ts: the manifest skeleton.  The object
literal sets app.connect to key and remote only, so authentication starts
absent. -/
def genDefaultManifest (connect : ConnectDescriptor) : ForgeManifest :=
  { app :=
      { id := "ari:cloud:ecosystem::app/invalid-run-forge-register"
        connect :=
          { key := connect.key
            authentication := none
            remote := "connect" } }
    remotes := [{ key := "connect", baseUrl := connect.baseUrl }]
    connectModules := []
    permissions := { scopes := [] } }

/-- UNSUPPORTED_MODULES of index.ts: new Set([]), the empty block-list. -/
def UNSUPPORTED_MODULES : List String := []

/-- The scope transformation of the engine:
scope.toLowerCase().replace(/_/g, '-').  Modelled at the character-list
level: every character is lower-cased (Char.toLower, which agrees with
JavaScript toLowerCase on the ASCII scope names) and every underscore (left
fixed by lower-casing) is then replaced by a hyphen, exactly what the global
single-character regex does. -/
def forgeScopeOf (scope : String) : String :=
  String.mk (scope.data.map (fun c => if c.toLower = '_' then '-' else c.toLower))

/-- The lifecycle stage of convertToForgemanifest: if connect.lifecycle is
present, assign connectModules[type ++ ":lifecycle"] the one-element array
holding the object literal with key first and the spread lifecycle entries
after it (a later duplicate property overwrites in place), and assign
app.connect.authentication = "jwt". -/
def applyLifecycle (manifest : ForgeManifest) (connect : ConnectDescriptor)
    (ty : String) : ForgeManifest :=
  match connect.lifecycle with
  | some lc =>
    { manifest with
        connectModules :=
          jsInsert manifest.connectModules (ty ++ ":lifecycle")
            (JValue.arr [JValue.obj
              (jsInsertAll [("key", JValue.str "lifecycle-events")]
                (lc.map (fun p => (p.1, JValue.str p.2))))])
        app :=
          { manifest.app with
              connect := { manifest.app.connect with authentication := some "jwt" } } }
  | none => manifest

/-- Array.isArray(moduleContent) ? moduleContent : [moduleContent]. -/
def wrapModule (v : JValue) : JValue :=
  if v.isArr then v else JValue.arr [v]

/-- The modules stage of convertToForgemanifest: for every entry of
connect.modules, in Object.entries order, if the content isPresent assign
connectModules[type ++ ":" ++ moduleType] the content itself when it is an
array, else the one-element array holding it. -/
def addModules (ty : String) (cms : List (String × JValue))
    (mods : List (String × JValue)) : List (String × JValue) :=
  mods.foldl
    (fun acc kv =>
      if jsIsPresent kv.2 then
        jsInsert acc (ty ++ ":" ++ kv.1) (wrapModule kv.2)
      else acc)
    cms

/-- One step of the webhook forEach body:
slot[index].key = "webhook-" ++ (index+1).  Assigning a property of a
non-object primitive is a TypeError (strict mode). -/
def setWebhookKey (v : JValue) (i : Nat) : Except String JValue :=
  match v with
  | .obj fs =>
    .ok (.obj (jsInsert fs "key" (.str ("webhook-" ++ toString (i + 1)))))
  | _ => .error "TypeError: cannot create property on a primitive value"

/-- Run the webhook forEach over n indices starting at index i against the
stored slot elements zs: element j of zs receives key "webhook-" ++ (i+j+1).
Indexing past the end of the slot yields undefined, whose property
assignment is a TypeError. -/
def keyWebhooksFrom : List JValue → Nat → Nat → Except String (List JValue)
  | zs, _, 0 => .ok zs
  | [], _, _ + 1 => .error "TypeError: cannot set properties of undefined"
  | z :: zs, i, n + 1 =>
    match setWebhookKey z i with
    | .error e => .error e
    | .ok z2 =>
      match keyWebhooksFrom zs (i + 1) n with
      | .error e => .error e
      | .ok rest => .ok (z2 :: rest)

/-- The webhook stage of convertToForgemanifest: if connect.modules.webhooks
is a present array, iterate over it assigning synthetic keys to the elements
of the connectModules slot named type ++ ":webhooks" (in index.ts the slot
and the descriptor array are one and the same object; the mutated slot state
is written back here, and the descriptor side of the mutation is modelled by
descriptorAfterConvert below).  A missing or non-indexable slot is a
TypeError. -/
def rekeyWebhooks (manifest : ForgeManifest) (connect : ConnectDescriptor)
    (ty : String) : Except String ForgeManifest :=
  match lookupField connect.modules "webhooks" with
  | some (.arr ws) =>
    match lookupField manifest.connectModules (ty ++ ":webhooks") with
    | some (.arr zs) =>
      match keyWebhooksFrom zs 0 ws.length with
      | .error e => .error e
      | .ok zs2 =>
        .ok { manifest with
                connectModules :=
                  jsInsert manifest.connectModules (ty ++ ":webhooks") (.arr zs2) }
    | some _ => .error "TypeError: webhooks slot is not indexable"
    | none => .error "TypeError: cannot read properties of undefined"
  | _ => .ok manifest

/-- The scope stage of convertToForgemanifest: if connect.scopes is present
and non-empty, push the transformed scopes, suffixed
":connect-" ++ type, in order. -/
def applyScopes (manifest : ForgeManifest) (connect : ConnectDescriptor)
    (ty : String) : ForgeManifest :=
  match connect.scopes with
  | some sc =>
    if sc.length > 0 then
      { manifest with
          permissions :=
            { scopes :=
                manifest.permissions.scopes ++
                  sc.map (fun s => forgeScopeOf s ++ ":connect-" ++ ty) } }
    else manifest
  | none => manifest

/-- The warnings pushed by the unsupported-module check: one per module type
found in the UNSUPPORTED_MODULES block-list. -/
def unsupportedWarnings (connect : ConnectDescriptor) : List String :=
  ((connect.modules.map Prod.fst).filter
      (fun m => UNSUPPORTED_MODULES.contains m)).map
    (fun u => u ++ " is not currently supported in a Forge manifest.")

/-- The warning pushed when the descriptor has a translations section. -/
def translationsWarning : String :=
  "Found \x27translations\x27 in Connect Descriptor. Translations for \x27connectModules\x27 not currently supported in Forge manifest and will not be copied over."

/-- The warning pushed when the descriptor has a regionBaseUrls section. -/
def regionWarning : String :=
  "Found \x27regionBaseUrls\x27 in Connect Descriptor. Data Residency not Connect not currently supported in a Forge manifest."

/-- The warning pushed when the descriptor has a cloudAppMigration section. -/
def cloudAppMigrationWarning : String :=
  "Found \x27cloudAppMigration\x27 in Connect Descriptor. App Migration Platform not currently supported in a Forge manifest."

/-- The warnings pushed by the three isPresent checks at the end of the
engine, in their source order. -/
def presenceWarnings (connect : ConnectDescriptor) : List String :=
  (if connect.translations.isSome then [translationsWarning] else []) ++
  (if connect.regionBaseUrls.isSome then [regionWarning] else []) ++
  (if connect.cloudAppMigration.isSome then [cloudAppMigrationWarning] else [])

/-- The manifest state after the lifecycle and modules stages of
convertToForgemanifest have run, before the webhook stage. -/
def convertStage2 (manifest : ForgeManifest) (connect : ConnectDescriptor)
    (ty : String) : ForgeManifest :=
  let m1 := applyLifecycle manifest connect ty
  { m1 with connectModules := addModules ty m1.connectModules connect.modules }

/-- convertToForgemanifest of index.ts: lifecycle stage, modules stage,
unsupported-module warnings, webhook keying, scope mapping, presence
warnings, returning the (manifest, warnings) pair.  The stages that the
source runs as statements in sequence are composed here in the same order;
the warning list is exactly the pushes in source order (the
unsupported-module warnings are pushed before the presence warnings). -/
def convertToForgemanifest (manifest : ForgeManifest)
    (connect : ConnectDescriptor) (ty : String) :
    Except String (ForgeManifest × List String) :=
  match rekeyWebhooks (convertStage2 manifest connect ty) connect ty with
  | .error e => .error e
  | .ok m3 =>
    .ok (applyScopes m3 connect ty,
         unsupportedWarnings connect ++ presenceWarnings connect)

/-- The state of the input descriptor object after convertToForgemanifest
returns.  In index.ts the modules stage stores connect.modules.webhooks into
the connectModules slot by reference (line 257 inserts moduleContent
itself), so the webhook stage, which assigns keys through the slot, mutates
the very objects held by the descriptor: afterwards the descriptor webhooks
entry holds the keyed array, i.e. the final contents of that slot.  All
other descriptor fields are untouched. -/
def descriptorAfterConvert (connect : ConnectDescriptor) (ty : String) :
    ConnectDescriptor :=
  match convertToForgemanifest (genDefaultManifest connect) connect ty with
  | .error _ => connect
  | .ok (m, _) =>
    match lookupField connect.modules "webhooks" with
    | some (.arr _) =>
      match lookupField m.connectModules (ty ++ ":webhooks") with
      | some slot =>
        { connect with modules := jsInsert connect.modules "webhooks" slot }
      | none => connect
    | _ => connect

mutual

/-- A computable structural size for JValue, used only to hand deepmerge
enough fuel. -/
def JValue.jsize : JValue → Nat
  | .arr xs => 1 + jsizeList xs
  | .obj fs => 1 + jsizeFields fs
  | _ => 1

/-- Size of a JValue list. -/
def jsizeList : List JValue → Nat
  | [] => 1
  | x :: xs => 1 + JValue.jsize x + jsizeList xs

/-- Size of a JValue field list. -/
def jsizeFields : List (String × JValue) → Nat
  | [] => 1
  | kv :: fs => 1 + JValue.jsize kv.2 + jsizeFields fs

end

/-- The default isMergeableObject predicate of the deepmerge package: plain
objects and arrays merge recursively, everything else is replaced. -/
def isMergeableObject : JValue → Bool
  | .obj _ => true
  | .arr _ => true
  | _ => false

/-- Fuel-indexed core of the deepmerge npm package with its default options:
if exactly one side is an array the source replaces the target; two arrays
concatenate (target first); otherwise the object merge keeps the target
fields in order (a shared key recursing when the source value is mergeable
and replaced by the source value otherwise) and appends the source-only
fields in source order.  Fuel only forces termination; deepmerge below
always supplies enough. -/
def deepmergeF : Nat → JValue → JValue → JValue
  | 0, _, s => s
  | fuel + 1, t, s =>
    match t, s with
    | .arr xs, .arr ys => .arr (xs ++ ys)
    | .arr _, s2 => s2
    | _, .arr ys => .arr ys
    | .obj tf, .obj sf =>
      .obj
        ((tf.map (fun kv =>
            match lookupField sf kv.1 with
            | none => kv
            | some sv =>
              (kv.1, if isMergeableObject sv then deepmergeF fuel kv.2 sv else sv)))
         ++ sf.filter (fun kv => (lookupField tf kv.1).isNone))
    | .obj tf, _ => .obj tf
    | _, .obj sf => .obj sf
    | _, _ => .obj []

/-- merge from the deepmerge npm package (default options), total on JValue:
the combined size of the two values is always enough fuel. -/
def deepmerge (t s : JValue) : JValue :=
  deepmergeF (t.jsize + s.jsize) t s

/-- How a single shared key is resolved by the deepmerge object merge. -/
def mergeEntry (sf : List (String × JValue)) (kv : String × JValue) :
    String × JValue :=
  match lookupField sf kv.1 with
  | none => kv
  | some sv => (kv.1, if isMergeableObject sv then deepmerge kv.2 sv else sv)

/-- The field list deepmerge produces for two objects: the target fields in
order, each resolved against the source, then the source-only fields. -/
def mergeFields (tf sf : List (String × JValue)) : List (String × JValue) :=
  tf.map (mergeEntry sf) ++ sf.filter (fun kv => (lookupField tf kv.1).isNone)

/-- Property lookup on a JValue: objects look up the field, everything else
has no properties. -/
def jlookup (v : JValue) (k : String) : Option JValue :=
  match v with
  | .obj fs => lookupField fs k
  | _ => none

/-- Two-level property lookup on a JValue. -/
def jlookup2 (v : JValue) (k1 k2 : String) : Option JValue :=
  match jlookup v k1 with
  | some w => jlookup w k2
  | none => none

/-- The JSON object a remotes element denotes. -/
def remoteToJ (r : RemoteEntry) : JValue :=
  .obj [("key", .str r.key), ("baseUrl", .str r.baseUrl)]

/-- The property list of the JSON document a ForgeManifest denotes.
Property order follows the object literal of genDefaultManifest;
app.connect gains its authentication property last because the engine
assigns it after the literal is built. -/
def manifestFieldsOf (m : ForgeManifest) : List (String × JValue) :=
  [("app", .obj
      [("id", .str m.app.id),
       ("connect", .obj
          ([("key", .str m.app.connect.key),
            ("remote", .str m.app.connect.remote)] ++
           (match m.app.connect.authentication with
            | some a => [("authentication", .str a)]
            | none => [])))]),
   ("remotes", .arr (m.remotes.map remoteToJ)),
   ("connectModules", .obj m.connectModules),
   ("permissions", .obj [("scopes", .arr (m.permissions.scopes.map JValue.str))])]

/-- The JSON document a ForgeManifest denotes (the shape yaml.dump receives
and the shape the deepmerge call at the merge step operates on). -/
def manifestToJ (m : ForgeManifest) : JValue :=
  .obj (manifestFieldsOf m)

/-! ## Association-list lemmas -/

theorem lookupField_append (a b : List (String × JValue)) (k : String) :
    lookupField (a ++ b) k =
      match lookupField a k with
      | some v => some v
      | none => lookupField b k := by
  induction a with
  | nil => simp [lookupField]
  | cons kv rest ih =>
    obtain ⟨k2, v⟩ := kv
    by_cases h : k2 = k <;> simp [lookupField, h, ih]

theorem lookupField_map_keyfix (f : (String × JValue) → (String × JValue))
    (hf : ∀ kv, (f kv).1 = kv.1) (l : List (String × JValue)) (k : String) :
    lookupField (l.map f) k = (lookupField l k).map (fun v => (f (k, v)).2) := by
  induction l with
  | nil => simp [lookupField]
  | cons kv rest ih =>
    obtain ⟨k2, v⟩ := kv
    by_cases h : k2 = k
    · subst h
      have h1 : (f (k2, v)).1 = k2 := hf (k2, v)
      simp only [List.map_cons, lookupField]
      rw [show f (k2, v) = ((f (k2, v)).1, (f (k2, v)).2) from rfl]
      simp [lookupField, h1]
    · have h1 : (f (k2, v)).1 = k2 := hf (k2, v)
      simp only [List.map_cons, lookupField]
      rw [show f (k2, v) = ((f (k2, v)).1, (f (k2, v)).2) from rfl]
      simp only [lookupField, h1, if_neg h]
      exact ih

theorem lookupField_filter_of_true (p : (String × JValue) → Bool)
    (l : List (String × JValue)) (k : String)
    (h : ∀ kv ∈ l, kv.1 = k → p kv = true) :
    lookupField (l.filter p) k = lookupField l k := by
  induction l with
  | nil => simp
  | cons kv rest ih =>
    obtain ⟨k2, v⟩ := kv
    by_cases hk : k2 = k
    · subst hk
      have : p (k2, v) = true := h (k2, v) (by simp) rfl
      simp [List.filter, this, lookupField]
    · have ih2 := ih (fun kv hkv => h kv (by simp [hkv]))
      cases hp : p (k2, v) <;> simp [List.filter, hp, lookupField, hk, ih2]

theorem jsInsert_keyfix (k : String) (v : JValue) (kv : String × JValue) :
    ((if kv.1 = k then (k, v) else kv) : String × JValue).1 = kv.1 := by
  by_cases h : kv.1 = k <;> simp [h]

theorem lookupField_jsInsert_self (fs : List (String × JValue)) (k : String)
    (v : JValue) : lookupField (jsInsert fs k v) k = some v := by
  unfold jsInsert
  by_cases hs : (lookupField fs k).isSome
  · rw [if_pos hs, lookupField_map_keyfix _ (jsInsert_keyfix k v)]
    obtain ⟨v0, hv0⟩ := Option.isSome_iff_exists.mp hs
    simp [hv0]
  · rw [if_neg hs, lookupField_append]
    have hnone : lookupField fs k = none := Option.not_isSome_iff_eq_none.mp hs
    simp [hnone, lookupField]

theorem lookupField_jsInsert_ne (fs : List (String × JValue)) (k k2 : String)
    (v : JValue) (h : k2 ≠ k) :
    lookupField (jsInsert fs k v) k2 = lookupField fs k2 := by
  unfold jsInsert
  by_cases hs : (lookupField fs k).isSome
  · rw [if_pos hs, lookupField_map_keyfix _ (jsInsert_keyfix k v)]
    cases hlf : lookupField fs k2 <;> simp [hlf, h]
  · rw [if_neg hs, lookupField_append]
    cases hlf : lookupField fs k2 <;> simp [hlf, lookupField, h, Ne.symm h]

theorem lookupField_mem (fs : List (String × JValue)) (k : String) (v : JValue)
    (h : lookupField fs k = some v) : (k, v) ∈ fs := by
  induction fs with
  | nil => simp [lookupField] at h
  | cons kv rest ih =>
    obtain ⟨k2, v2⟩ := kv
    by_cases hk : k2 = k
    · subst hk
      simp [lookupField] at h
      simp [h]
    · simp only [lookupField, hk, if_neg, if_false] at h
      exact List.mem_cons_of_mem _ (ih h)

theorem lookupField_isSome_of_mem (fs : List (String × JValue)) (kv : String × JValue)
    (h : kv ∈ fs) : (lookupField fs kv.1).isSome := by
  induction fs with
  | nil => simp at h
  | cons kv2 rest ih =>
    obtain ⟨k2, v2⟩ := kv2
    rcases List.mem_cons.mp h with h1 | h1
    · subst h1
      simp [lookupField]
    · by_cases hk : k2 = kv.1 <;> simp [lookupField, hk, ih h1]

theorem jsInsert_mem (fs : List (String × JValue)) (k : String) (v : JValue)
    (kv : String × JValue) (h : kv ∈ jsInsert fs k v) :
    kv.2 = v ∨ kv ∈ fs := by
  unfold jsInsert at h
  by_cases hs : (lookupField fs k).isSome
  · rw [if_pos hs] at h
    obtain ⟨kv2, hmem, heq⟩ := List.mem_map.mp h
    by_cases hk : kv2.1 = k
    · simp only [hk, if_true] at heq
      left; rw [← heq]
    · simp only [hk, if_false] at heq
      right; rw [← heq]; exact hmem
  · rw [if_neg hs] at h
    rcases List.mem_append.mp h with h1 | h1
    · right; exact h1
    · left; simp at h1; rw [h1]

theorem jsInsert_key_mem (fs : List (String × JValue)) (k : String) (v : JValue)
    (kv : String × JValue) (h : kv ∈ jsInsert fs k v) :
    kv.1 = k ∨ kv.1 ∈ fs.map Prod.fst := by
  unfold jsInsert at h
  by_cases hs : (lookupField fs k).isSome
  · rw [if_pos hs] at h
    obtain ⟨kv2, hmem, heq⟩ := List.mem_map.mp h
    by_cases hk : kv2.1 = k
    · simp only [hk, if_true] at heq
      left; rw [← heq]
    · simp only [hk, if_false] at heq
      right; rw [← heq]; exact List.mem_map.mpr ⟨kv2, hmem, rfl⟩
  · rw [if_neg hs] at h
    rcases List.mem_append.mp h with h1 | h1
    · right; exact List.mem_map.mpr ⟨kv, h1, rfl⟩
    · left; simp at h1; rw [h1]

/-! ## Size bounds and fuel irrelevance for deepmerge -/

theorem JValue.one_le_jsize (v : JValue) : 1 ≤ v.jsize := by
  cases v <;> simp [JValue.jsize]

theorem jsize_lt_of_mem (tf : List (String × JValue)) (kv : String × JValue)
    (h : kv ∈ tf) : kv.2.jsize < jsizeFields tf := by
  induction tf with
  | nil => simp at h
  | cons kv2 rest ih =>
    rcases List.mem_cons.mp h with h1 | h1
    · subst h1
      simp only [jsizeFields]
      omega
    · have := ih h1
      simp only [jsizeFields]
      omega

theorem jsize_lt_of_lookup (sf : List (String × JValue)) (k : String)
    (sv : JValue) (h : lookupField sf k = some sv) : sv.jsize < jsizeFields sf :=
  jsize_lt_of_mem sf (k, sv) (lookupField_mem sf k sv h)

theorem deepmergeF_fuel (f : Nat) :
    ∀ (g : Nat) (t s : JValue), t.jsize + s.jsize ≤ f → t.jsize + s.jsize ≤ g →
      deepmergeF f t s = deepmergeF g t s := by
  induction f with
  | zero =>
    intro g t s hf _
    have h1 := t.one_le_jsize
    have h2 := s.one_le_jsize
    omega
  | succ n ih =>
    intro g t s hf hg
    cases g with
    | zero =>
      have h1 := t.one_le_jsize
      have h2 := s.one_le_jsize
      omega
    | succ m =>
      cases t with
      | arr xs => cases s <;> rfl
      | obj tf =>
        cases s with
        | obj sf =>
          simp only [deepmergeF]
          congr 2
          apply List.map_congr_left
          intro kv hkv
          cases hlk : lookupField sf kv.1 with
          | none => rfl
          | some sv =>
            simp only []
            cases hm : isMergeableObject sv with
            | false => simp
            | true =>
              simp only [if_pos rfl, if_true]
              have hb1 : kv.2.jsize < jsizeFields tf := jsize_lt_of_mem tf kv hkv
              have hb2 : sv.jsize < jsizeFields sf := jsize_lt_of_lookup sf kv.1 sv hlk
              have hsz : (JValue.obj tf).jsize = 1 + jsizeFields tf := rfl
              have hsz2 : (JValue.obj sf).jsize = 1 + jsizeFields sf := rfl
              rw [ih n (kv.2) sv (by omega) (by omega),
                  ih m (kv.2) sv (by omega) (by omega)]
        | arr ys => rfl
        | str a => rfl
        | num a => rfl
        | bool a => rfl
        | null => rfl
      | str a => cases s <;> rfl
      | num a => cases s <;> rfl
      | bool a => cases s <;> rfl
      | null => cases s <;> rfl

theorem deepmergeF_eq_deepmerge (f : Nat) (t s : JValue)
    (hf : t.jsize + s.jsize ≤ f) : deepmergeF f t s = deepmerge t s :=
  deepmergeF_fuel f (t.jsize + s.jsize) t s hf (le_refl _)

/-- Two arrays deep-merge to their concatenation (the default arrayMerge of
the deepmerge package). -/
theorem deepmerge_arr_arr (xs ys : List JValue) :
    deepmerge (.arr xs) (.arr ys) = .arr (xs ++ ys) := by
  have h1 := (JValue.arr xs).one_le_jsize
  have h2 := (JValue.arr ys).one_le_jsize
  unfold deepmerge
  obtain ⟨n, hn⟩ : ∃ n, (JValue.arr xs).jsize + (JValue.arr ys).jsize = n + 1 :=
    ⟨(JValue.arr xs).jsize + (JValue.arr ys).jsize - 1, by omega⟩
  rw [hn]
  rfl

/-- Two objects deep-merge field list to field list as mergeFields
describes. -/
theorem deepmerge_obj_obj (tf sf : List (String × JValue)) :
    deepmerge (.obj tf) (.obj sf) = .obj (mergeFields tf sf) := by
  unfold deepmerge
  obtain ⟨n, hn⟩ : ∃ n, (JValue.obj tf).jsize + (JValue.obj sf).jsize = n + 1 :=
    ⟨(JValue.obj tf).jsize + (JValue.obj sf).jsize - 1, by
      have h1 := (JValue.obj tf).one_le_jsize
      have h2 := (JValue.obj sf).one_le_jsize
      omega⟩
  rw [hn]
  simp only [deepmergeF]
  unfold mergeFields
  congr 2
  apply List.map_congr_left
  intro kv hkv
  unfold mergeEntry
  cases hlk : lookupField sf kv.1 with
  | none => rfl
  | some sv =>
    simp only []
    cases hm : isMergeableObject sv with
    | false => simp
    | true =>
      simp only [if_pos rfl, if_true]
      have hb1 : kv.2.jsize < jsizeFields tf := jsize_lt_of_mem tf kv hkv
      have hb2 : sv.jsize < jsizeFields sf := jsize_lt_of_lookup sf kv.1 sv hlk
      have hsz : (JValue.obj tf).jsize = 1 + jsizeFields tf := rfl
      have hsz2 : (JValue.obj sf).jsize = 1 + jsizeFields sf := rfl
      exact congrArg (fun x => (kv.1, x)) (deepmergeF_eq_deepmerge n kv.2 sv (by omega))

/-- Lookup in the object produced by the deepmerge object merge: a key on
the target only keeps the target value, a key on the source only gets the
source value, a shared key recurses for a mergeable source value and takes
the source value otherwise. -/
theorem lookupField_mergeFields (tf sf : List (String × JValue)) (k : String) :
    lookupField (mergeFields tf sf) k =
      match lookupField tf k, lookupField sf k with
      | none, none => none
      | some tv, none => some tv
      | none, some sv => some sv
      | some tv, some sv =>
        some (if isMergeableObject sv then deepmerge tv sv else sv) := by
  unfold mergeFields
  rw [lookupField_append]
  have hkeyfix : ∀ kv : String × JValue, (mergeEntry sf kv).1 = kv.1 := by
    intro kv
    unfold mergeEntry
    cases lookupField sf kv.1 <;> rfl
  rw [lookupField_map_keyfix _ hkeyfix]
  cases htf : lookupField tf k with
  | some tv =>
    cases hsf : lookupField sf k <;> simp [mergeEntry, hsf]
  | none =>
    have hfilter := lookupField_filter_of_true
      (fun kv => (lookupField tf kv.1).isNone) sf k
      (by intro kv _ hk; simp only []; rw [hk, htf]; rfl)
    cases hsf : lookupField sf k <;> simp [hfilter, hsf]

/-! ## Key-string lemmas -/

theorem typeKey_inj (ty mt1 mt2 : String)
    (h : ty ++ ":" ++ mt1 = ty ++ ":" ++ mt2) : mt1 = mt2 := by
  have h2 := congrArg String.data h
  simp only [String.data_append] at h2
  exact String.ext (List.append_cancel_left h2)

theorem typeKey_lifecycle (ty : String) : ty ++ ":" ++ "lifecycle" = ty ++ ":lifecycle" := by
  rw [String.append_assoc]; rfl

theorem typeKey_webhooks (ty : String) : ty ++ ":" ++ "webhooks" = ty ++ ":webhooks" := by
  rw [String.append_assoc]; rfl

theorem typeKey_ne_dataResidency (ty mt : String)
    (hty : ty = "jira" ∨ ty = "confluence") :
    ty ++ ":" ++ mt ≠ "migration:dataResidency" := by
  intro h
  have h2 := congrArg String.data h
  rcases hty with h1 | h1 <;> subst h1 <;>
    simp only [String.data_append] at h2 <;>
    simp at h2

/-! ## addModules lemmas -/

theorem wrapModule_arr (v : JValue) : ∃ xs, wrapModule v = JValue.arr xs := by
  unfold wrapModule
  cases v <;> simp [JValue.isArr]

theorem addModules_cons (ty : String) (cms : List (String × JValue))
    (kv2 : String × JValue) (rest : List (String × JValue)) :
    addModules ty cms (kv2 :: rest) =
      addModules ty
        (if jsIsPresent kv2.2 then
           jsInsert cms (ty ++ ":" ++ kv2.1) (wrapModule kv2.2)
         else cms)
        rest := rfl

theorem addModules_lookup_other (ty : String) (k : String) :
    ∀ (mods cms : List (String × JValue)),
      (∀ kv ∈ mods, ty ++ ":" ++ kv.1 ≠ k) →
      lookupField (addModules ty cms mods) k = lookupField cms k := by
  intro mods
  induction mods with
  | nil => intro cms _; rfl
  | cons kv2 rest ih =>
    intro cms h
    have hhead : ty ++ ":" ++ kv2.1 ≠ k := h kv2 (by simp)
    have htail : ∀ kv ∈ rest, ty ++ ":" ++ kv.1 ≠ k :=
      fun kv hkv => h kv (List.mem_cons_of_mem _ hkv)
    rw [addModules_cons]
    cases hp : jsIsPresent kv2.2 with
    | false => rw [if_neg (by simp [hp])]; exact ih cms htail
    | true =>
      rw [if_pos rfl, ih _ htail]
      exact lookupField_jsInsert_ne _ _ _ _ (fun hk => hhead hk.symm)

theorem addModules_lookup_mem (ty mt : String) (mc : JValue) :
    ∀ (mods cms : List (String × JValue)),
      (mods.map Prod.fst).Nodup → (mt, mc) ∈ mods → jsIsPresent mc →
      lookupField (addModules ty cms mods) (ty ++ ":" ++ mt) = some (wrapModule mc) := by
  intro mods
  induction mods with
  | nil => intro cms _ hmem; simp at hmem
  | cons kv2 rest ih =>
    intro cms hnd hmem hp
    have hnd2 : (rest.map Prod.fst).Nodup := (List.nodup_cons.mp (by simpa using hnd)).2
    rw [addModules_cons]
    rcases List.mem_cons.mp hmem with h1 | h1
    · subst h1
      rw [if_pos hp]
      have hnotin : mt ∉ rest.map Prod.fst := (List.nodup_cons.mp (by simpa using hnd)).1
      rw [addModules_lookup_other ty _ rest _
        (by
          intro kv hkv heq
          exact hnotin (by
            rw [← typeKey_inj ty kv.1 mt heq]
            exact List.mem_map.mpr ⟨kv, hkv, rfl⟩))]
      exact lookupField_jsInsert_self _ _ _
    · cases hp2 : jsIsPresent kv2.2 with
      | false => rw [if_neg (by simp [hp2])]; exact ih cms hnd2 h1 hp
      | true => rw [if_pos rfl]; exact ih _ hnd2 h1 hp

theorem addModules_all_arr (ty : String) :
    ∀ (mods cms : List (String × JValue)),
      (∀ kv ∈ cms, ∃ xs, kv.2 = JValue.arr xs) →
      ∀ kv ∈ addModules ty cms mods, ∃ xs, kv.2 = JValue.arr xs := by
  intro mods
  induction mods with
  | nil => intro cms h; exact h
  | cons kv2 rest ih =>
    intro cms h
    rw [addModules_cons]
    cases hp : jsIsPresent kv2.2 with
    | false => rw [if_neg (by simp [hp])]; exact ih cms h
    | true =>
      rw [if_pos rfl]
      refine ih _ ?_
      intro kv hkv
      rcases jsInsert_mem _ _ _ _ hkv with h2 | h2
      · rw [h2]; exact wrapModule_arr kv2.2
      · exact h kv h2

theorem addModules_keys (ty : String) :
    ∀ (mods cms : List (String × JValue)),
      ∀ kv ∈ addModules ty cms mods,
        kv.1 ∈ cms.map Prod.fst ∨
        ∃ mt ∈ mods.map Prod.fst, kv.1 = ty ++ ":" ++ mt := by
  intro mods
  induction mods with
  | nil =>
    intro cms kv hkv
    exact Or.inl (List.mem_map.mpr ⟨kv, hkv, rfl⟩)
  | cons kv2 rest ih =>
    intro cms kv hkv
    rw [addModules_cons] at hkv
    cases hp : jsIsPresent kv2.2 with
    | false =>
      rw [if_neg (by simp [hp])] at hkv
      rcases ih cms kv hkv with h1 | ⟨mt, hmt, hkey⟩
      · exact Or.inl h1
      · exact Or.inr ⟨mt, by simp [hmt], hkey⟩
    | true =>
      rw [if_pos hp] at hkv
      rcases ih _ kv hkv with h1 | ⟨mt, hmt, hkey⟩
      · rcases List.mem_map.mp h1 with ⟨kv3, hkv3, hkey3⟩
        rcases jsInsert_key_mem _ _ _ _ hkv3 with h2 | h2
        · exact Or.inr ⟨kv2.1, by simp, by rw [← hkey3, h2]⟩
        · exact Or.inl (by rw [← hkey3]; exact h2)
      · exact Or.inr ⟨mt, by simp [hmt], hkey⟩

/-! ## Webhook-keying lemmas -/

theorem keyWebhooksFrom_ok (zs : List JValue) :
    ∀ i : Nat, (∀ z ∈ zs, ∃ fs, z = JValue.obj fs) →
      ∃ out, keyWebhooksFrom zs i zs.length = .ok out := by
  induction zs with
  | nil => intro i _; exact ⟨[], rfl⟩
  | cons z rest ih =>
    intro i h
    obtain ⟨fs, hfs⟩ := h z (by simp)
    obtain ⟨out2, hout2⟩ := ih (i + 1) (fun z2 hz2 => h z2 (by simp [hz2]))
    refine ⟨JValue.obj (jsInsert fs "key" (.str ("webhook-" ++ toString (i + 1)))) :: out2, ?_⟩
    simp only [List.length_cons, keyWebhooksFrom, hfs, setWebhookKey, hout2]

theorem keyWebhooksFrom_spec (zs : List JValue) :
    ∀ (i : Nat) (out : List JValue),
      keyWebhooksFrom zs i zs.length = .ok out →
      out.length = zs.length ∧
      ∀ j : Nat, j < zs.length →
        ∃ fs, zs.get? j = some (JValue.obj fs) ∧
          out.get? j = some (JValue.obj
            (jsInsert fs "key" (.str ("webhook-" ++ toString (i + j + 1))))) := by
  induction zs with
  | nil =>
    intro i out h
    simp only [List.length_nil, keyWebhooksFrom] at h
    cases h
    exact ⟨rfl, by intro j hj; simp at hj⟩
  | cons z rest ih =>
    intro i out h
    simp only [List.length_cons, keyWebhooksFrom] at h
    cases hz : setWebhookKey z i with
    | error e => rw [hz] at h; cases h
    | ok z2 =>
      rw [hz] at h
      cases hrest : keyWebhooksFrom rest (i + 1) rest.length with
      | error e => rw [hrest] at h; cases h
      | ok out2 =>
        rw [hrest] at h
        cases h
        obtain ⟨hlen, hspec⟩ := ih (i + 1) out2 hrest
        obtain ⟨fs, hfs, hz2⟩ : ∃ fs, z = JValue.obj fs ∧
            z2 = JValue.obj (jsInsert fs "key" (.str ("webhook-" ++ toString (i + 1)))) := by
          cases z with
          | obj fs => exact ⟨fs, rfl, by simpa [setWebhookKey] using hz.symm⟩
          | str a => simp [setWebhookKey] at hz
          | num a => simp [setWebhookKey] at hz
          | bool a => simp [setWebhookKey] at hz
          | null => simp [setWebhookKey] at hz
          | arr a => simp [setWebhookKey] at hz
        constructor
        · simp [hlen]
        · intro j hj
          cases j with
          | zero => exact ⟨fs, by simp [hfs], by simp [hz2]⟩
          | succ j2 =>
            obtain ⟨fs2, hfs2, hout2⟩ := hspec j2 (by simpa using hj)
            refine ⟨fs2, by simpa using hfs2, ?_⟩
            have harg : i + 1 + j2 + 1 = i + (j2 + 1) + 1 := by omega
            rw [← harg]
            simpa using hout2

/-! ## rekeyWebhooks lemmas -/

theorem rekeyWebhooks_inv (m m3 : ForgeManifest) (c : ConnectDescriptor)
    (ty : String) (h : rekeyWebhooks m c ty = .ok m3) :
    (∃ ws zs zs2, lookupField c.modules "webhooks" = some (JValue.arr ws) ∧
        lookupField m.connectModules (ty ++ ":webhooks") = some (JValue.arr zs) ∧
        keyWebhooksFrom zs 0 ws.length = .ok zs2 ∧
        m3 = { m with connectModules := jsInsert m.connectModules (ty ++ ":webhooks") (JValue.arr zs2) }) ∨
    ((∀ ws, lookupField c.modules "webhooks" ≠ some (JValue.arr ws)) ∧ m3 = m) := by
  cases hw : lookupField c.modules "webhooks" with
  | none =>
    right
    have heval : rekeyWebhooks m c ty = .ok m := by
      unfold rekeyWebhooks; rw [hw]
    rw [heval] at h
    cases h
    refine ⟨?_, rfl⟩
    intro ws hws
    simp at hws
  | some wv =>
    cases wv with
    | arr ws =>
      left
      cases hslot : lookupField m.connectModules (ty ++ ":webhooks") with
      | none =>
        have heval : rekeyWebhooks m c ty = .error "TypeError: cannot read properties of undefined" := by
          unfold rekeyWebhooks; rw [hw, hslot]
        rw [heval] at h; cases h
      | some slot =>
        cases slot with
        | arr zs =>
          cases hkey : keyWebhooksFrom zs 0 ws.length with
          | error e =>
            have heval : rekeyWebhooks m c ty = .error e := by
              unfold rekeyWebhooks; rw [hw, hslot]; simp [hkey]
            rw [heval] at h; cases h
          | ok zs2 =>
            have heval : rekeyWebhooks m c ty = .ok { m with connectModules := jsInsert m.connectModules (ty ++ ":webhooks") (JValue.arr zs2) } := by
              unfold rekeyWebhooks; rw [hw, hslot]; simp [hkey]
            rw [heval] at h
            cases h
            exact ⟨ws, zs, zs2, rfl, rfl, hkey, rfl⟩
        | obj fs =>
          have heval : rekeyWebhooks m c ty = .error "TypeError: webhooks slot is not indexable" := by
            unfold rekeyWebhooks; rw [hw, hslot]
          rw [heval] at h; cases h
        | str a =>
          have heval : rekeyWebhooks m c ty = .error "TypeError: webhooks slot is not indexable" := by
            unfold rekeyWebhooks; rw [hw, hslot]
          rw [heval] at h; cases h
        | num a =>
          have heval : rekeyWebhooks m c ty = .error "TypeError: webhooks slot is not indexable" := by
            unfold rekeyWebhooks; rw [hw, hslot]
          rw [heval] at h; cases h
        | bool a =>
          have heval : rekeyWebhooks m c ty = .error "TypeError: webhooks slot is not indexable" := by
            unfold rekeyWebhooks; rw [hw, hslot]
          rw [heval] at h; cases h
        | null =>
          have heval : rekeyWebhooks m c ty = .error "TypeError: webhooks slot is not indexable" := by
            unfold rekeyWebhooks; rw [hw, hslot]
          rw [heval] at h; cases h
    | obj fs =>
      right
      have heval : rekeyWebhooks m c ty = .ok m := by
        unfold rekeyWebhooks; rw [hw]
      rw [heval] at h; cases h
      refine ⟨?_, rfl⟩
      intro ws hws
      simp at hws
    | str a =>
      right
      have heval : rekeyWebhooks m c ty = .ok m := by
        unfold rekeyWebhooks; rw [hw]
      rw [heval] at h; cases h
      refine ⟨?_, rfl⟩
      intro ws hws
      simp at hws
    | num a =>
      right
      have heval : rekeyWebhooks m c ty = .ok m := by
        unfold rekeyWebhooks; rw [hw]
      rw [heval] at h; cases h
      refine ⟨?_, rfl⟩
      intro ws hws
      simp at hws
    | bool a =>
      right
      have heval : rekeyWebhooks m c ty = .ok m := by
        unfold rekeyWebhooks; rw [hw]
      rw [heval] at h; cases h
      refine ⟨?_, rfl⟩
      intro ws hws
      simp at hws
    | null =>
      right
      have heval : rekeyWebhooks m c ty = .ok m := by
        unfold rekeyWebhooks; rw [hw]
      rw [heval] at h; cases h
      refine ⟨?_, rfl⟩
      intro ws hws
      simp at hws

theorem rekeyWebhooks_skeleton (m m3 : ForgeManifest) (c : ConnectDescriptor)
    (ty : String) (h : rekeyWebhooks m c ty = .ok m3) :
    m3.app = m.app ∧ m3.remotes = m.remotes ∧ m3.permissions = m.permissions := by
  rcases rekeyWebhooks_inv m m3 c ty h with ⟨ws, zs, zs2, _, _, _, hm3⟩ | ⟨_, hm3⟩ <;>
    subst hm3 <;> exact ⟨rfl, rfl, rfl⟩

theorem rekeyWebhooks_ok_arr (m m3 : ForgeManifest) (c : ConnectDescriptor)
    (ty : String) (ws : List JValue)
    (hw : lookupField c.modules "webhooks" = some (JValue.arr ws))
    (h : rekeyWebhooks m c ty = .ok m3) :
    ∃ zs zs2, lookupField m.connectModules (ty ++ ":webhooks") = some (JValue.arr zs) ∧
      keyWebhooksFrom zs 0 ws.length = .ok zs2 ∧
      m3.connectModules = jsInsert m.connectModules (ty ++ ":webhooks") (JValue.arr zs2) := by
  rcases rekeyWebhooks_inv m m3 c ty h with ⟨ws2, zs, zs2, hw2, hslot, hkey, hm3⟩ | ⟨hno, _⟩
  · rw [hw] at hw2
    have hws : ws2 = ws := by simpa using hw2.symm
    subst hws
    subst hm3
    exact ⟨zs, zs2, hslot, hkey, rfl⟩
  · exact absurd hw (hno ws)

theorem rekeyWebhooks_skip (m : ForgeManifest) (c : ConnectDescriptor)
    (ty : String)
    (hw : ∀ ws, lookupField c.modules "webhooks" ≠ some (JValue.arr ws)) :
    rekeyWebhooks m c ty = .ok m := by
  unfold rekeyWebhooks
  cases hl : lookupField c.modules "webhooks" with
  | none => rfl
  | some wv =>
    cases wv with
    | arr ws => exact absurd hl (hw ws)
    | obj fs => rfl
    | str a => rfl
    | num a => rfl
    | bool a => rfl
    | null => rfl

theorem rekeyWebhooks_lookup_other (m m3 : ForgeManifest) (c : ConnectDescriptor)
    (ty k : String) (h : rekeyWebhooks m c ty = .ok m3)
    (hk : k ≠ ty ++ ":webhooks") :
    lookupField m3.connectModules k = lookupField m.connectModules k := by
  rcases rekeyWebhooks_inv m m3 c ty h with ⟨ws, zs, zs2, _, _, _, hm3⟩ | ⟨_, hm3⟩
  · subst hm3
    exact lookupField_jsInsert_ne _ _ _ _ hk
  · subst hm3; rfl

theorem rekeyWebhooks_all_arr (m m3 : ForgeManifest) (c : ConnectDescriptor)
    (ty : String) (h : rekeyWebhooks m c ty = .ok m3)
    (hall : ∀ kv ∈ m.connectModules, ∃ xs, kv.2 = JValue.arr xs) :
    ∀ kv ∈ m3.connectModules, ∃ xs, kv.2 = JValue.arr xs := by
  rcases rekeyWebhooks_inv m m3 c ty h with ⟨ws, zs, zs2, _, _, _, hm3⟩ | ⟨_, hm3⟩
  · subst hm3
    intro kv hkv
    rcases jsInsert_mem _ _ _ _ hkv with h2 | h2
    · exact ⟨zs2, h2⟩
    · exact hall kv h2
  · subst hm3; exact hall

/-! ## Stage lemmas for the remaining engine stages -/

theorem applyLifecycle_app_id (m : ForgeManifest) (c : ConnectDescriptor)
    (ty : String) : (applyLifecycle m c ty).app.id = m.app.id := by
  unfold applyLifecycle
  cases c.lifecycle <;> rfl

theorem applyLifecycle_auth (m : ForgeManifest) (c : ConnectDescriptor)
    (ty : String) :
    (applyLifecycle m c ty).app.connect.authentication =
      (if c.lifecycle.isSome then some "jwt" else m.app.connect.authentication) := by
  unfold applyLifecycle
  cases c.lifecycle <;> rfl

theorem applyLifecycle_key_remote (m : ForgeManifest) (c : ConnectDescriptor)
    (ty : String) :
    (applyLifecycle m c ty).app.connect.key = m.app.connect.key ∧
    (applyLifecycle m c ty).app.connect.remote = m.app.connect.remote := by
  unfold applyLifecycle
  cases c.lifecycle <;> exact ⟨rfl, rfl⟩

theorem applyLifecycle_remotes (m : ForgeManifest) (c : ConnectDescriptor)
    (ty : String) : (applyLifecycle m c ty).remotes = m.remotes := by
  unfold applyLifecycle
  cases c.lifecycle <;> rfl

theorem applyLifecycle_permissions (m : ForgeManifest) (c : ConnectDescriptor)
    (ty : String) : (applyLifecycle m c ty).permissions = m.permissions := by
  unfold applyLifecycle
  cases c.lifecycle <;> rfl

theorem applyLifecycle_cm_none (m : ForgeManifest) (c : ConnectDescriptor)
    (ty : String) (h : c.lifecycle = none) :
    (applyLifecycle m c ty).connectModules = m.connectModules := by
  unfold applyLifecycle
  rw [h]

theorem applyLifecycle_cm_some (m : ForgeManifest) (c : ConnectDescriptor)
    (ty : String) (lc : List (String × String)) (h : c.lifecycle = some lc) :
    (applyLifecycle m c ty).connectModules =
      jsInsert m.connectModules (ty ++ ":lifecycle")
        (JValue.arr [JValue.obj
          (jsInsertAll [("key", JValue.str "lifecycle-events")]
            (lc.map (fun p => (p.1, JValue.str p.2))))]) := by
  unfold applyLifecycle
  rw [h]

theorem applyLifecycle_all_arr (m : ForgeManifest) (c : ConnectDescriptor)
    (ty : String) (hall : ∀ kv ∈ m.connectModules, ∃ xs, kv.2 = JValue.arr xs) :
    ∀ kv ∈ (applyLifecycle m c ty).connectModules, ∃ xs, kv.2 = JValue.arr xs := by
  cases hl : c.lifecycle with
  | none => rw [applyLifecycle_cm_none m c ty hl]; exact hall
  | some lc =>
    rw [applyLifecycle_cm_some m c ty lc hl]
    intro kv hkv
    rcases jsInsert_mem _ _ _ _ hkv with h2 | h2
    · exact ⟨_, h2⟩
    · exact hall kv h2

theorem applyLifecycle_keys (m : ForgeManifest) (c : ConnectDescriptor)
    (ty : String) :
    ∀ kv ∈ (applyLifecycle m c ty).connectModules,
      kv.1 ∈ m.connectModules.map Prod.fst ∨ kv.1 = ty ++ ":lifecycle" := by
  cases hl : c.lifecycle with
  | none =>
    rw [applyLifecycle_cm_none m c ty hl]
    intro kv hkv
    exact Or.inl (List.mem_map.mpr ⟨kv, hkv, rfl⟩)
  | some lc =>
    rw [applyLifecycle_cm_some m c ty lc hl]
    intro kv hkv
    rcases jsInsert_key_mem _ _ _ _ hkv with h2 | h2
    · exact Or.inr h2
    · exact Or.inl h2

theorem applyScopes_app (m : ForgeManifest) (c : ConnectDescriptor)
    (ty : String) : (applyScopes m c ty).app = m.app := by
  unfold applyScopes
  cases c.scopes with
  | none => rfl
  | some sc => by_cases h : sc.length > 0 <;> simp [h]

theorem applyScopes_remotes (m : ForgeManifest) (c : ConnectDescriptor)
    (ty : String) : (applyScopes m c ty).remotes = m.remotes := by
  unfold applyScopes
  cases c.scopes with
  | none => rfl
  | some sc => by_cases h : sc.length > 0 <;> simp [h]

theorem applyScopes_cm (m : ForgeManifest) (c : ConnectDescriptor)
    (ty : String) : (applyScopes m c ty).connectModules = m.connectModules := by
  unfold applyScopes
  cases c.scopes with
  | none => rfl
  | some sc => by_cases h : sc.length > 0 <;> simp [h]

theorem applyScopes_some (m : ForgeManifest) (c : ConnectDescriptor)
    (ty : String) (sc : List String) (h : c.scopes = some sc) :
    (applyScopes m c ty).permissions.scopes =
      m.permissions.scopes ++
        sc.map (fun s => forgeScopeOf s ++ ":connect-" ++ ty) := by
  unfold applyScopes
  rw [h]
  cases sc with
  | nil => simp
  | cons s rest => simp

theorem applyScopes_none (m : ForgeManifest) (c : ConnectDescriptor)
    (ty : String) (h : c.scopes = none) :
    (applyScopes m c ty).permissions = m.permissions := by
  unfold applyScopes
  rw [h]

/-! ## convertStage2 and convertToForgemanifest inversion -/

theorem convertStage2_app (m : ForgeManifest) (c : ConnectDescriptor)
    (ty : String) : (convertStage2 m c ty).app = (applyLifecycle m c ty).app := rfl

theorem convertStage2_remotes (m : ForgeManifest) (c : ConnectDescriptor)
    (ty : String) : (convertStage2 m c ty).remotes = m.remotes := by
  show (applyLifecycle m c ty).remotes = m.remotes
  exact applyLifecycle_remotes m c ty

theorem convertStage2_permissions (m : ForgeManifest) (c : ConnectDescriptor)
    (ty : String) : (convertStage2 m c ty).permissions = m.permissions := by
  show (applyLifecycle m c ty).permissions = m.permissions
  exact applyLifecycle_permissions m c ty

theorem convertStage2_cm (m : ForgeManifest) (c : ConnectDescriptor)
    (ty : String) :
    (convertStage2 m c ty).connectModules =
      addModules ty (applyLifecycle m c ty).connectModules c.modules := rfl

theorem convert_inv (m0 : ForgeManifest) (c : ConnectDescriptor) (ty : String)
    (m : ForgeManifest) (w : List String)
    (h : convertToForgemanifest m0 c ty = .ok (m, w)) :
    ∃ m3, rekeyWebhooks (convertStage2 m0 c ty) c ty = .ok m3 ∧
      m = applyScopes m3 c ty ∧
      w = unsupportedWarnings c ++ presenceWarnings c := by
  unfold convertToForgemanifest at h
  cases hr : rekeyWebhooks (convertStage2 m0 c ty) c ty with
  | error e => rw [hr] at h; cases h
  | ok m3 =>
    rw [hr] at h
    cases h
    exact ⟨m3, rfl, rfl, rfl⟩

theorem unsupportedWarnings_eq_nil (c : ConnectDescriptor) :
    unsupportedWarnings c = [] := by
  unfold unsupportedWarnings UNSUPPORTED_MODULES
  rw [show (fun m => ([] : List String).contains m) = (fun _ => false) from rfl,
    List.filter_false]
  rfl

theorem rekeyWebhooks_isSome (m m3 : ForgeManifest) (c : ConnectDescriptor)
    (ty k : String) (h : rekeyWebhooks m c ty = .ok m3)
    (hs : (lookupField m.connectModules k).isSome) :
    (lookupField m3.connectModules k).isSome := by
  rcases rekeyWebhooks_inv m m3 c ty h with ⟨ws, zs, zs2, _, _, _, hm3⟩ | ⟨_, hm3⟩
  · subst hm3
    by_cases hk : k = ty ++ ":webhooks"
    · subst hk
      rw [lookupField_jsInsert_self]
      rfl
    · rw [lookupField_jsInsert_ne _ _ _ _ hk]
      exact hs
  · subst hm3; exact hs

/-- Every key of the final connectModules is of the form type:mt where mt is
lifecycle, webhooks or one of the descriptor module types. -/
theorem convert_cm_keys (c : ConnectDescriptor) (ty : String)
    (m : ForgeManifest) (w : List String)
    (h : convertToForgemanifest (genDefaultManifest c) c ty = .ok (m, w)) :
    ∀ kv ∈ m.connectModules, ∃ mt, kv.1 = ty ++ ":" ++ mt ∧
      (mt = "lifecycle" ∨ mt = "webhooks" ∨ mt ∈ c.modules.map Prod.fst) := by
  obtain ⟨m3, hr, hm, _⟩ := convert_inv _ c ty m w h
  subst hm
  intro kv hkv
  rw [applyScopes_cm] at hkv
  have hstage2 : ∀ kv2 ∈ (convertStage2 (genDefaultManifest c) c ty).connectModules,
      ∃ mt, kv2.1 = ty ++ ":" ++ mt ∧
        (mt = "lifecycle" ∨ mt = "webhooks" ∨ mt ∈ c.modules.map Prod.fst) := by
    intro kv2 hkv2
    rw [convertStage2_cm] at hkv2
    rcases addModules_keys ty c.modules _ kv2 hkv2 with h1 | ⟨mt, hmt, hkey⟩
    · rcases List.mem_map.mp h1 with ⟨kv3, hkv3, hkey3⟩
      rcases applyLifecycle_keys (genDefaultManifest c) c ty kv3 hkv3 with h2 | h2
      · simp [genDefaultManifest] at h2
      · exact ⟨"lifecycle", by rw [typeKey_lifecycle, ← hkey3, h2], Or.inl rfl⟩
    · exact ⟨mt, hkey, Or.inr (Or.inr hmt)⟩
  rcases rekeyWebhooks_inv _ _ c ty hr with ⟨ws, zs, zs2, _, _, _, hm3⟩ | ⟨_, hm3⟩
  · subst hm3
    rcases jsInsert_key_mem _ _ _ _ hkv with h2 | h2
    · exact ⟨"webhooks", by rw [typeKey_webhooks, h2], Or.inr (Or.inl rfl)⟩
    · rcases List.mem_map.mp h2 with ⟨kv3, hkv3, hkey3⟩
      obtain ⟨mt, hk2, hmt⟩ := hstage2 kv3 hkv3
      exact ⟨mt, by rw [← hkey3, hk2], hmt⟩
  · subst hm3
    exact hstage2 kv hkv

/-- The engine touches neither remotes nor the skeleton identity fields. -/
theorem convert_skeleton (c : ConnectDescriptor) (ty : String)
    (m : ForgeManifest) (w : List String)
    (h : convertToForgemanifest (genDefaultManifest c) c ty = .ok (m, w)) :
    m.remotes = [{ key := "connect", baseUrl := c.baseUrl }] ∧
    m.app.id = "ari:cloud:ecosystem::app/invalid-run-forge-register" ∧
    m.app.connect.key = c.key ∧ m.app.connect.remote = "connect" := by
  obtain ⟨m3, hr, hm, _⟩ := convert_inv _ c ty m w h
  subst hm
  obtain ⟨happ, hrem, _⟩ := rekeyWebhooks_skeleton _ _ c ty hr
  refine ⟨?_, ?_, ?_, ?_⟩
  · rw [applyScopes_remotes, hrem, convertStage2_remotes]; rfl
  · rw [show (applyScopes m3 c ty).app = m3.app from applyScopes_app m3 c ty, happ,
      convertStage2_app, applyLifecycle_app_id]; rfl
  · rw [show (applyScopes m3 c ty).app = m3.app from applyScopes_app m3 c ty, happ,
      convertStage2_app,
      (applyLifecycle_key_remote (genDefaultManifest c) c ty).1]; rfl
  · rw [show (applyScopes m3 c ty).app = m3.app from applyScopes_app m3 c ty, happ,
      convertStage2_app,
      (applyLifecycle_key_remote (genDefaultManifest c) c ty).2]; rfl

/-! ## Claim theorems -/

/-- C1: for every descriptor whose scopes list is present (length K), the
engine emits permissions.scopes as exactly the positional map of the input:
the i-th output entry is the i-th input scope lower-cased with every
underscore replaced by a hyphen and suffixed ":connect-" ++ platform; the
map preserves length and relative order and drops or rejects nothing. -/
theorem convert_scope_mapping (c : ConnectDescriptor) (ty : String)
    (sc : List String) (m : ForgeManifest) (w : List String)
    (hs : c.scopes = some sc)
    (h : convertToForgemanifest (genDefaultManifest c) c ty = .ok (m, w)) :
    m.permissions.scopes = sc.map (fun s => forgeScopeOf s ++ ":connect-" ++ ty) := by
  obtain ⟨m3, hr, hm, _⟩ := convert_inv _ c ty m w h
  subst hm
  rw [applyScopes_some m3 c ty sc hs,
    (rekeyWebhooks_skeleton _ _ c ty hr).2.2, convertStage2_permissions]
  rfl

/-- Demonstration descriptor for the scope-mapping claim: three scopes, one
with two underscores. -/
def demoScopesD : ConnectDescriptor :=
  { name := "Scope Demo"
    key := "scope-demo"
    baseUrl := "https://demo.example"
    scopes := some ["READ", "ACT_AS_USER", "PROJECT_ADMIN"]
    lifecycle := none
    modules := []
    translations := none
    regionBaseUrls := none
    cloudAppMigration := none }

theorem convert_scope_mapping_witness :
    ∃ m w, convertToForgemanifest (genDefaultManifest demoScopesD) demoScopesD "jira" =
        Except.ok (m, w) ∧
      m.permissions.scopes =
        ["read:connect-jira", "act-as-user:connect-jira", "project-admin:connect-jira"] := by
  refine ⟨_, _, rfl, ?_⟩
  exact (convert_scope_mapping demoScopesD "jira"
    ["READ", "ACT_AS_USER", "PROJECT_ADMIN"] _ _ rfl rfl).trans rfl

/-- C5: after conversion app.connect.authentication is "jwt" exactly when a
lifecycle mapping is present, and stays unset (the skeleton never sets it)
when the lifecycle is absent. -/
theorem convert_lifecycle_auth (c : ConnectDescriptor) (ty : String)
    (m : ForgeManifest) (w : List String)
    (h : convertToForgemanifest (genDefaultManifest c) c ty = .ok (m, w)) :
    m.app.connect.authentication =
      (if c.lifecycle.isSome then some "jwt" else none) := by
  obtain ⟨m3, hr, hm, _⟩ := convert_inv _ c ty m w h
  subst hm
  rw [show (applyScopes m3 c ty).app = m3.app from applyScopes_app m3 c ty,
    (rekeyWebhooks_skeleton _ _ c ty hr).1, convertStage2_app, applyLifecycle_auth]
  cases c.lifecycle <;> rfl

/-- Demonstration descriptor with a lifecycle section. -/
def demoLifecycleD : ConnectDescriptor :=
  { name := "Lifecycle Demo"
    key := "lifecycle-demo"
    baseUrl := "https://demo.example"
    scopes := none
    lifecycle := some [("installed", "/installed"), ("uninstalled", "/uninstalled")]
    modules := []
    translations := none
    regionBaseUrls := none
    cloudAppMigration := none }

theorem convert_lifecycle_auth_witness :
    ∃ m w, convertToForgemanifest (genDefaultManifest demoLifecycleD) demoLifecycleD "jira" =
        Except.ok (m, w) ∧
      m.app.connect.authentication = some "jwt" := by
  refine ⟨_, _, rfl, ?_⟩
  exact (convert_lifecycle_auth demoLifecycleD "jira" _ _ rfl).trans rfl

/-- C3: after conversion every value stored in connectModules is an array:
every present non-null module entry gets a slot holding an array (the value
itself when it was an array, the one-element wrapping otherwise — stated
exactly for the non-webhook slots, whose content the later webhook keying
never touches), and no slot anywhere in connectModules is a bare object. -/
theorem convert_modules_arrayified (c : ConnectDescriptor) (ty : String)
    (m : ForgeManifest) (w : List String)
    (hnd : (c.modules.map Prod.fst).Nodup)
    (h : convertToForgemanifest (genDefaultManifest c) c ty = .ok (m, w)) :
    (∀ kv ∈ m.connectModules, ∃ xs, kv.2 = JValue.arr xs) ∧
    (∀ mt mc, (mt, mc) ∈ c.modules → jsIsPresent mc →
      ∃ xs, lookupField m.connectModules (ty ++ ":" ++ mt) = some (JValue.arr xs)) ∧
    (∀ mt mc, (mt, mc) ∈ c.modules → jsIsPresent mc → mt ≠ "webhooks" →
      lookupField m.connectModules (ty ++ ":" ++ mt) = some (wrapModule mc)) := by
  obtain ⟨m3, hr, hm, _⟩ := convert_inv _ c ty m w h
  subst hm
  have hbase : ∀ kv ∈ (genDefaultManifest c).connectModules, ∃ xs, kv.2 = JValue.arr xs := by
    intro kv hkv
    simp [genDefaultManifest] at hkv
  have hstage2 : ∀ kv ∈ (convertStage2 (genDefaultManifest c) c ty).connectModules,
      ∃ xs, kv.2 = JValue.arr xs := by
    rw [convertStage2_cm]
    exact addModules_all_arr ty c.modules _
      (applyLifecycle_all_arr (genDefaultManifest c) c ty hbase)
  have hall : ∀ kv ∈ (applyScopes m3 c ty).connectModules, ∃ xs, kv.2 = JValue.arr xs := by
    rw [applyScopes_cm]
    exact rekeyWebhooks_all_arr _ _ c ty hr hstage2
  refine ⟨hall, ?_, ?_⟩
  · intro mt mc hmem hp
    have hsome : (lookupField (convertStage2 (genDefaultManifest c) c ty).connectModules
        (ty ++ ":" ++ mt)).isSome := by
      rw [convertStage2_cm, addModules_lookup_mem ty mt mc c.modules _ hnd hmem hp]
      rfl
    have hsome2 := rekeyWebhooks_isSome _ _ c ty (ty ++ ":" ++ mt) hr hsome
    obtain ⟨v, hv⟩ := Option.isSome_iff_exists.mp hsome2
    obtain ⟨xs, hxs⟩ := hall (ty ++ ":" ++ mt, v)
      (by rw [applyScopes_cm]; exact lookupField_mem _ _ _ hv)
    exact ⟨xs, by rw [applyScopes_cm, hv]; exact congrArg some hxs⟩
  · intro mt mc hmem hp hne
    rw [applyScopes_cm,
      rekeyWebhooks_lookup_other _ _ c ty (ty ++ ":" ++ mt) hr
        (by
          intro heq
          rw [← typeKey_webhooks ty] at heq
          exact hne (typeKey_inj ty mt "webhooks" heq)),
      convertStage2_cm]
    exact addModules_lookup_mem ty mt mc c.modules _ hnd hmem hp

/-- Demonstration descriptor with a single-object module, an array module,
a null module and a webhook array. -/
def demoModulesD : ConnectDescriptor :=
  { name := "Modules Demo"
    key := "modules-demo"
    baseUrl := "https://demo.example"
    scopes := none
    lifecycle := none
    modules :=
      [("generalPages", JValue.arr [JValue.obj [("key", JValue.str "page-1")]]),
       ("jiraIssueGlances", JValue.obj [("key", JValue.str "glance-1")]),
       ("absentModule", JValue.null),
       ("webhooks", JValue.arr [JValue.obj [("event", JValue.str "jira:issue_updated")]])]
    translations := none
    regionBaseUrls := none
    cloudAppMigration := none }

theorem convert_modules_arrayified_witness :
    ∃ m w, convertToForgemanifest (genDefaultManifest demoModulesD) demoModulesD "jira" =
        Except.ok (m, w) ∧
      lookupField m.connectModules "jira:jiraIssueGlances" =
        some (JValue.arr [JValue.obj [("key", JValue.str "glance-1")]]) := by
  refine ⟨_, _, rfl, ?_⟩
  have h3 := (convert_modules_arrayified demoModulesD "jira" _ _ (by decide) rfl).2.2
    "jiraIssueGlances" (JValue.obj [("key", JValue.str "glance-1")])
    (List.mem_cons_of_mem _ (List.mem_cons_self _ _)) rfl (by decide)
  exact h3.trans rfl

/-- C4: when the descriptor webhooks module is an array of length M, the
final connectModules slot for webhooks holds an array of the same length M
whose j-th element is the j-th original webhook object with its key
property overwritten to "webhook-" ++ (j+1), in original order, regardless
of what key the object carried before. -/
theorem convert_webhook_keying (c : ConnectDescriptor) (ty : String)
    (ws : List JValue) (m : ForgeManifest) (w : List String)
    (hnd : (c.modules.map Prod.fst).Nodup)
    (hw : lookupField c.modules "webhooks" = some (JValue.arr ws))
    (h : convertToForgemanifest (genDefaultManifest c) c ty = .ok (m, w)) :
    ∃ zs, lookupField m.connectModules (ty ++ ":webhooks") = some (JValue.arr zs) ∧
      zs.length = ws.length ∧
      ∀ j, j < ws.length →
        ∃ fs, ws.get? j = some (JValue.obj fs) ∧
          zs.get? j = some (JValue.obj
            (jsInsert fs "key" (JValue.str ("webhook-" ++ toString (j + 1))))) := by
  obtain ⟨m3, hr, hm, _⟩ := convert_inv _ c ty m w h
  subst hm
  obtain ⟨zs0, zs2, hslot, hkey, hcm⟩ := rekeyWebhooks_ok_arr _ _ c ty ws hw hr
  have hslot2 : lookupField (convertStage2 (genDefaultManifest c) c ty).connectModules
      (ty ++ ":webhooks") = some (JValue.arr ws) := by
    rw [← typeKey_webhooks, convertStage2_cm,
      addModules_lookup_mem ty "webhooks" (JValue.arr ws) c.modules _ hnd
        (lookupField_mem _ _ _ hw) rfl]
    rfl
  have hzs0 : zs0 = ws := by
    have := hslot.symm.trans hslot2
    simpa using this
  subst hzs0
  obtain ⟨hlen, hspec⟩ := keyWebhooksFrom_spec zs0 0 zs2 hkey
  refine ⟨zs2, ?_, hlen, ?_⟩
  · rw [applyScopes_cm, hcm, lookupField_jsInsert_self]
  · intro j hj
    obtain ⟨fs, h1, h2⟩ := hspec j hj
    refine ⟨fs, h1, ?_⟩
    have harg : (0 : Nat) + j + 1 = j + 1 := by omega
    rw [← harg]
    exact h2

/-- Demonstration descriptor whose second webhook already carries a key. -/
def demoWebhooksD : ConnectDescriptor :=
  { name := "Webhooks Demo"
    key := "webhooks-demo"
    baseUrl := "https://demo.example"
    scopes := none
    lifecycle := none
    modules :=
      [("webhooks", JValue.arr
        [JValue.obj [("event", JValue.str "jira:issue_updated"), ("url", JValue.str "/hook/update")],
         JValue.obj [("event", JValue.str "jira:issue_deleted"), ("key", JValue.str "old-key")]])]
    translations := none
    regionBaseUrls := none
    cloudAppMigration := none }

theorem convert_webhook_keying_witness :
    ∃ m w, convertToForgemanifest (genDefaultManifest demoWebhooksD) demoWebhooksD "jira" =
        Except.ok (m, w) ∧
      ∃ zs, lookupField m.connectModules ("jira" ++ ":webhooks") = some (JValue.arr zs) ∧
        zs.length = 2 := by
  refine ⟨_, _, rfl, ?_⟩
  obtain ⟨zs, hslot, hlen, _⟩ := convert_webhook_keying demoWebhooksD "jira" _ _ _
    (by decide) rfl rfl
  exact ⟨zs, hslot, hlen.trans rfl⟩

/-- Is a value a JSON object. -/
def isObjValue : JValue → Bool
  | .obj _ => true
  | _ => false

/-- A module value matching the SourceDescriptor shape of the spec data
model: a single object, an ordered sequence of objects, or null (an entry
the engine treats as absent). -/
def moduleValueOk : JValue → Bool
  | .null => true
  | .obj _ => true
  | .arr xs => xs.all isObjValue
  | _ => false

/-- A descriptor matching the SourceDescriptor shape: its modules record
has unique keys (as any JavaScript object does) and every module value is a
single object, a sequence of objects, or null. -/
def wellFormedDescriptor (c : ConnectDescriptor) : Prop :=
  (c.modules.map Prod.fst).Nodup ∧ ∀ kv ∈ c.modules, moduleValueOk kv.2 = true

/-- C6: on every well-formed descriptor the engine throws nothing: it always
returns an ok (manifest, warnings) pair; the only TypeError sites of the
model (the webhook keying) are unreachable for such descriptors. -/
theorem convert_never_throws (c : ConnectDescriptor) (ty : String)
    (hwf : wellFormedDescriptor c) :
    ∃ p, convertToForgemanifest (genDefaultManifest c) c ty = .ok p := by
  obtain ⟨hnd, hmods⟩ := hwf
  suffices hs : ∃ m3, rekeyWebhooks (convertStage2 (genDefaultManifest c) c ty) c ty = .ok m3 by
    obtain ⟨m3, hr⟩ := hs
    unfold convertToForgemanifest
    rw [hr]
    exact ⟨_, rfl⟩
  cases hwk : lookupField c.modules "webhooks" with
  | none =>
    exact ⟨_, rekeyWebhooks_skip _ c ty (by intro ws hws; rw [hwk] at hws; simp at hws)⟩
  | some wv =>
    cases wv with
    | arr ws =>
      have hmem := lookupField_mem _ _ _ hwk
      have hok := hmods _ hmem
      have hobjs : ∀ z ∈ ws, ∃ fs, z = JValue.obj fs := by
        intro z hz
        have hz2 := List.all_eq_true.mp (by simpa [moduleValueOk] using hok) z hz
        cases z with
        | obj fs => exact ⟨fs, rfl⟩
        | str a => simp [isObjValue] at hz2
        | num a => simp [isObjValue] at hz2
        | bool a => simp [isObjValue] at hz2
        | null => simp [isObjValue] at hz2
        | arr a => simp [isObjValue] at hz2
      have hslot : lookupField (convertStage2 (genDefaultManifest c) c ty).connectModules
          (ty ++ ":webhooks") = some (JValue.arr ws) := by
        rw [← typeKey_webhooks, convertStage2_cm,
          addModules_lookup_mem ty "webhooks" (JValue.arr ws) c.modules _ hnd hmem rfl]
        rfl
      obtain ⟨out, hout⟩ := keyWebhooksFrom_ok ws 0 hobjs
      refine ⟨{ convertStage2 (genDefaultManifest c) c ty with
        connectModules := jsInsert (convertStage2 (genDefaultManifest c) c ty).connectModules (ty ++ ":webhooks") (JValue.arr out) }, ?_⟩
      unfold rekeyWebhooks
      rw [hwk, hslot]
      simp [hout]
    | obj fs =>
      exact ⟨_, rekeyWebhooks_skip _ c ty (by intro ws hws; rw [hwk] at hws; simp at hws)⟩
    | str a =>
      exact ⟨_, rekeyWebhooks_skip _ c ty (by intro ws hws; rw [hwk] at hws; simp at hws)⟩
    | num a =>
      exact ⟨_, rekeyWebhooks_skip _ c ty (by intro ws hws; rw [hwk] at hws; simp at hws)⟩
    | bool a =>
      exact ⟨_, rekeyWebhooks_skip _ c ty (by intro ws hws; rw [hwk] at hws; simp at hws)⟩
    | null =>
      exact ⟨_, rekeyWebhooks_skip _ c ty (by intro ws hws; rw [hwk] at hws; simp at hws)⟩

/-- A full demonstration descriptor exercising every stage at once. -/
def demoFullD : ConnectDescriptor :=
  { name := "My Reminders"
    key := "com.atlassian.myreminders"
    baseUrl := "https://my-reminders.services.atlassian.com"
    scopes := some ["READ", "WRITE"]
    lifecycle := some [("installed", "/installed"), ("uninstalled", "/uninstalled")]
    modules :=
      [("webPanels", JValue.arr [JValue.obj
          [("location", JValue.str "atl.jira.view.issue.right.context"),
           ("key", JValue.str "view-issue-reminders")]]),
       ("webhooks", JValue.arr
          [JValue.obj [("event", JValue.str "jira:issue_updated"),
                       ("url", JValue.str "/rest/webhook/issue/update")],
           JValue.obj [("event", JValue.str "jira:issue_deleted"),
                       ("url", JValue.str "/rest/webhook/issue/delete")]]),
       ("jiraIssueGlances", JValue.obj [("key", JValue.str "view-issue-glance-reminders")])]
    translations := none
    regionBaseUrls := none
    cloudAppMigration := none }

theorem convert_never_throws_witness :
    wellFormedDescriptor demoFullD ∧
    ∃ p, convertToForgemanifest (genDefaultManifest demoFullD) demoFullD "jira" =
      Except.ok p :=
  ⟨by constructor
      · decide
      · decide,
   convert_never_throws demoFullD "jira" ⟨by decide, by decide⟩⟩

/-- C8: whenever regionBaseUrls is declared (whatever the lifecycle section
holds, in particular when the reserved region-migration hook is absent —
the engine of index.ts never inspects the lifecycle for it), exactly one
warning mentioning regionBaseUrls is pushed, no
connectModules["migration:dataResidency"] entry is ever created (the
ForgeManifest type of index.ts has no separate native-modules section at
all), and remotes stays the single scalar connect remote with the
descriptor base URL. -/
theorem convert_region_warning (c : ConnectDescriptor) (ty : String)
    (m : ForgeManifest) (w : List String)
    (hrb : c.regionBaseUrls.isSome)
    (hty : ty = "jira" ∨ ty = "confluence")
    (h : convertToForgemanifest (genDefaultManifest c) c ty = .ok (m, w)) :
    w.count regionWarning = 1 ∧
    lookupField m.connectModules "migration:dataResidency" = none ∧
    m.remotes = [{ key := "connect", baseUrl := c.baseUrl }] := by
  obtain ⟨m3, hrk, hm, hw⟩ := convert_inv _ c ty m w h
  refine ⟨?_, ?_, (convert_skeleton c ty m w h).1⟩
  · subst hw
    rw [unsupportedWarnings_eq_nil]
    unfold presenceWarnings
    rw [hrb]
    cases ht : c.translations.isSome <;> cases hcm : c.cloudAppMigration.isSome <;>
      simp only [if_true, if_false, Bool.false_eq_true, List.nil_append] <;> decide
  · cases hlk : lookupField m.connectModules "migration:dataResidency" with
    | none => rfl
    | some v =>
      exfalso
      obtain ⟨mt, hkey, _⟩ := convert_cm_keys c ty m w h ("migration:dataResidency", v)
        (lookupField_mem _ _ _ hlk)
      exact typeKey_ne_dataResidency ty mt hty hkey.symm

/-- Demonstration descriptor declaring regionBaseUrls and no lifecycle. -/
def demoRegionD : ConnectDescriptor :=
  { name := "Region Demo"
    key := "region-demo"
    baseUrl := "https://demo.example"
    scopes := none
    lifecycle := none
    modules := []
    translations := none
    regionBaseUrls := some (JValue.obj [("eu", JValue.str "https://eu.demo.example")])
    cloudAppMigration := none }

theorem convert_region_warning_witness :
    ∃ m w, convertToForgemanifest (genDefaultManifest demoRegionD) demoRegionD "jira" =
        Except.ok (m, w) ∧
      w.count regionWarning = 1 ∧
      m.remotes = [{ key := "connect", baseUrl := "https://demo.example" }] := by
  refine ⟨_, _, rfl, ?_, ?_⟩
  · exact (convert_region_warning demoRegionD "jira" _ _ rfl (Or.inl rfl) rfl).1
  · exact (convert_region_warning demoRegionD "jira" _ _ rfl (Or.inl rfl) rfl).2.2.trans rfl

/-- Demonstration descriptor declaring non-empty translation paths. -/
def demoTranslationsD : ConnectDescriptor :=
  { name := "Translations Demo"
    key := "translations-demo"
    baseUrl := "https://demo.example"
    scopes := none
    lifecycle := none
    modules := []
    translations := some (JValue.obj [("paths",
      JValue.obj [("fr-FR", JValue.str "/i18n/fr.json")])])
    regionBaseUrls := none
    cloudAppMigration := none }

/-- C7 counterexample: on a descriptor with non-empty translation paths the
engine emits NO translations connect-module entry (connectModules stays
empty, and in particular has no slot for translations and no
"connect-translations" key anywhere); it only pushes the
translations-unsupported warning. -/
theorem translations_counterexample :
    ∃ m w, convertToForgemanifest (genDefaultManifest demoTranslationsD)
        demoTranslationsD "jira" = Except.ok (m, w) ∧
      m.connectModules = [] ∧
      lookupField m.connectModules ("jira" ++ ":" ++ "translations") = none ∧
      w = [translationsWarning] := by
  exact ⟨_, _, rfl, rfl, rfl, rfl⟩

/-- C7 amended: when the descriptor declares a translations section, the
engine copies nothing into the manifest for it — if the descriptor has no
module named translations, the manifest has no type:translations
connect-module slot either — and instead appends the warning that
translations are not supported. -/
theorem convert_translations_warning_only (c : ConnectDescriptor) (ty : String)
    (m : ForgeManifest) (w : List String)
    (htr : c.translations.isSome)
    (hmod : lookupField c.modules "translations" = none)
    (h : convertToForgemanifest (genDefaultManifest c) c ty = .ok (m, w)) :
    translationsWarning ∈ w ∧
    lookupField m.connectModules (ty ++ ":" ++ "translations") = none := by
  obtain ⟨m3, hrk, hm, hw⟩ := convert_inv _ c ty m w h
  constructor
  · subst hw
    rw [unsupportedWarnings_eq_nil]
    unfold presenceWarnings
    rw [htr]
    simp
  · cases hlk : lookupField m.connectModules (ty ++ ":" ++ "translations") with
    | none => rfl
    | some v =>
      exfalso
      obtain ⟨mt, hkey, hcases⟩ := convert_cm_keys c ty m w h
        (ty ++ ":" ++ "translations", v) (lookupField_mem _ _ _ hlk)
      have hmt : mt = "translations" := (typeKey_inj ty "translations" mt hkey).symm
      subst hmt
      rcases hcases with h1 | h1 | h1
      · exact absurd h1 (by decide)
      · exact absurd h1 (by decide)
      · obtain ⟨kv2, hkv2, hfst⟩ := List.mem_map.mp h1
        have hsome := lookupField_isSome_of_mem c.modules kv2 hkv2
        rw [hfst, hmod] at hsome
        simp at hsome

theorem convert_translations_warning_only_witness :
    ∃ m w, convertToForgemanifest (genDefaultManifest demoTranslationsD)
        demoTranslationsD "jira" = Except.ok (m, w) ∧
      translationsWarning ∈ w ∧
      lookupField m.connectModules ("jira" ++ ":" ++ "translations") = none := by
  refine ⟨_, _, rfl, ?_, ?_⟩
  · exact (convert_translations_warning_only demoTranslationsD "jira" _ _ rfl rfl rfl).1
  · exact (convert_translations_warning_only demoTranslationsD "jira" _ _ rfl rfl rfl).2

/-- Demonstration descriptor for the merge step. -/
def demoMergeD : ConnectDescriptor :=
  { name := "Merge Demo"
    key := "merge-demo"
    baseUrl := "https://demo.example"
    scopes := some ["READ"]
    lifecycle := none
    modules := []
    translations := none
    regionBaseUrls := none
    cloudAppMigration := none }

/-- The freshly generated manifest for demoMergeD, as main builds it. -/
def demoMergeFresh : ForgeManifest :=
  match convertToForgemanifest (genDefaultManifest demoMergeD) demoMergeD "jira" with
  | .ok (m, _) => m
  | .error _ => genDefaultManifest demoMergeD

/-- The app section the fresh demo manifest denotes. -/
def demoMergeFreshApp : List (String × JValue) :=
  [("id", JValue.str "ari:cloud:ecosystem::app/invalid-run-forge-register"),
   ("connect", JValue.obj [("key", JValue.str "merge-demo"),
                           ("remote", JValue.str "connect")])]

/-- A prior manifest file without an app.connect section: it defines a real
app.id and one extra field of its own. -/
def demoMergePriorFields : List (String × JValue) :=
  [("app", JValue.obj [("id", JValue.str "ari:cloud:ecosystem::app/my-real-id")]),
   ("environment", JValue.str "production")]

/-- The prior manifest document. -/
def demoMergePrior : JValue := .obj demoMergePriorFields

/-- C2 counterexample: the prior manifest has no app.connect (so main takes
the merge branch), both manifests define the scalar app.id, and the merge
merge(forgeManifest, existingManifest) keeps the PRIOR value, not the
freshly generated one: deepmerge gives its second argument precedence on
scalar conflicts. -/
theorem merge_keeps_prior_scalar_counterexample :
    jlookup2 demoMergePrior "app" "connect" = none ∧
    jlookup2 (manifestToJ demoMergeFresh) "app" "id" =
      some (JValue.str "ari:cloud:ecosystem::app/invalid-run-forge-register") ∧
    jlookup2 (deepmerge (manifestToJ demoMergeFresh) demoMergePrior) "app" "id" =
      some (JValue.str "ari:cloud:ecosystem::app/my-real-id") ∧
    jlookup2 (deepmerge (manifestToJ demoMergeFresh) demoMergePrior) "app" "id" ≠
      jlookup2 (manifestToJ demoMergeFresh) "app" "id" := by
  have happ : jlookup (deepmerge (manifestToJ demoMergeFresh) demoMergePrior) "app" =
      some (deepmerge (JValue.obj demoMergeFreshApp)
        (JValue.obj [("id", JValue.str "ari:cloud:ecosystem::app/my-real-id")])) := by
    rw [show manifestToJ demoMergeFresh = JValue.obj (manifestFieldsOf demoMergeFresh) from rfl,
      show demoMergePrior = JValue.obj demoMergePriorFields from rfl,
      deepmerge_obj_obj]
    show lookupField (mergeFields (manifestFieldsOf demoMergeFresh) demoMergePriorFields) "app" = _
    rw [lookupField_mergeFields]
    rfl
  have hid : jlookup (deepmerge (JValue.obj demoMergeFreshApp)
      (JValue.obj [("id", JValue.str "ari:cloud:ecosystem::app/my-real-id")])) "id" =
      some (JValue.str "ari:cloud:ecosystem::app/my-real-id") := by
    rw [deepmerge_obj_obj]
    show lookupField (mergeFields demoMergeFreshApp
      [("id", JValue.str "ari:cloud:ecosystem::app/my-real-id")]) "id" = _
    rw [lookupField_mergeFields]
    rfl
  have hm2 : jlookup2 (deepmerge (manifestToJ demoMergeFresh) demoMergePrior) "app" "id" =
      some (JValue.str "ari:cloud:ecosystem::app/my-real-id") := by
    unfold jlookup2
    rw [happ]
    exact hid
  refine ⟨rfl, rfl, hm2, ?_⟩
  intro heq
  rw [hm2] at heq
  have h3 : ("ari:cloud:ecosystem::app/my-real-id" : String) =
      "ari:cloud:ecosystem::app/invalid-run-forge-register" := by
    have h4 := heq.trans (rfl : jlookup2 (manifestToJ demoMergeFresh) "app" "id" =
      some (JValue.str "ari:cloud:ecosystem::app/invalid-run-forge-register"))
    injection h4 with h5
    injection h5
  exact absurd h3 (by decide)

/-- C2 amended: in merge(forgeManifest, existingManifest) the deep merge
concatenates array-valued fields (fresh entries first) and, for a field
defined by both manifests whose prior value is scalar, keeps the PRIOR
manifest value — the second argument of deepmerge supersedes the freshly
generated one; each side contributes the fields the other does not define,
and a field defined by both with a mergeable prior value is merged
recursively. -/
theorem merge_precedence_amended :
    (∀ tf sf k, jlookup (deepmerge (JValue.obj tf) (JValue.obj sf)) k =
      (match lookupField tf k, lookupField sf k with
       | none, none => none
       | some tv, none => some tv
       | none, some sv => some sv
       | some tv, some sv =>
         some (if isMergeableObject sv then deepmerge tv sv else sv))) ∧
    (∀ xs ys, deepmerge (JValue.arr xs) (JValue.arr ys) = JValue.arr (xs ++ ys)) := by
  refine ⟨?_, deepmerge_arr_arr⟩
  intro tf sf k
  rw [deepmerge_obj_obj]
  show lookupField (mergeFields tf sf) k = _
  exact lookupField_mergeFields tf sf k

/-- The single remote of the fresh demo manifest, as a JSON object. -/
def demoMergeRemoteJ : JValue :=
  JValue.obj [("key", JValue.str "connect"),
              ("baseUrl", JValue.str "https://demo.example")]

/-- C9 counterexample: merging a generated manifest into itself does NOT
return the manifest unchanged — deepmerge concatenates array fields, so the
remotes array comes back doubled and the merged document differs from the
original. -/
theorem merge_not_idempotent_counterexample :
    jlookup (manifestToJ demoMergeFresh) "remotes" =
      some (JValue.arr [demoMergeRemoteJ]) ∧
    jlookup (deepmerge (manifestToJ demoMergeFresh) (manifestToJ demoMergeFresh)) "remotes" =
      some (JValue.arr [demoMergeRemoteJ, demoMergeRemoteJ]) ∧
    deepmerge (manifestToJ demoMergeFresh) (manifestToJ demoMergeFresh) ≠
      manifestToJ demoMergeFresh := by
  have h1 : jlookup (manifestToJ demoMergeFresh) "remotes" =
      some (JValue.arr [demoMergeRemoteJ]) := rfl
  have h2 : jlookup (deepmerge (manifestToJ demoMergeFresh) (manifestToJ demoMergeFresh)) "remotes" =
      some (JValue.arr [demoMergeRemoteJ, demoMergeRemoteJ]) := by
    rw [show manifestToJ demoMergeFresh = JValue.obj (manifestFieldsOf demoMergeFresh) from rfl,
      deepmerge_obj_obj]
    show lookupField (mergeFields (manifestFieldsOf demoMergeFresh)
      (manifestFieldsOf demoMergeFresh)) "remotes" = _
    rw [lookupField_mergeFields]
    show some (deepmerge (JValue.arr [demoMergeRemoteJ]) (JValue.arr [demoMergeRemoteJ])) = _
    rw [deepmerge_arr_arr]
    rfl
  refine ⟨h1, h2, ?_⟩
  intro heq
  have h3 := congrArg (fun v => jlookup v "remotes") heq
  simp only [] at h3
  rw [h2, h1] at h3
  injection h3 with h4
  injection h4 with h5
  have h6 := congrArg List.length h5
  simp at h6

/-- C9 amended: for every manifest the engine generates, merging it into
itself concatenates the array-valued fields — the remotes array is doubled
— so the merge of a generated manifest with itself is never equal to the
manifest: the merge step is not idempotent. -/
theorem merge_self_duplicates_arrays (c : ConnectDescriptor) (ty : String)
    (m : ForgeManifest) (w : List String)
    (h : convertToForgemanifest (genDefaultManifest c) c ty = .ok (m, w)) :
    jlookup (deepmerge (manifestToJ m) (manifestToJ m)) "remotes" =
      some (JValue.arr ((m.remotes ++ m.remotes).map remoteToJ)) ∧
    deepmerge (manifestToJ m) (manifestToJ m) ≠ manifestToJ m := by
  have hlk : jlookup (manifestToJ m) "remotes" =
      some (JValue.arr (m.remotes.map remoteToJ)) := rfl
  have h2 : jlookup (deepmerge (manifestToJ m) (manifestToJ m)) "remotes" =
      some (JValue.arr (m.remotes.map remoteToJ ++ m.remotes.map remoteToJ)) := by
    rw [show manifestToJ m = JValue.obj (manifestFieldsOf m) from rfl, deepmerge_obj_obj]
    show lookupField (mergeFields (manifestFieldsOf m) (manifestFieldsOf m)) "remotes" = _
    rw [lookupField_mergeFields]
    show some (deepmerge (JValue.arr (m.remotes.map remoteToJ))
      (JValue.arr (m.remotes.map remoteToJ))) = _
    rw [deepmerge_arr_arr]
  constructor
  · rw [h2, List.map_append]
  · intro heq
    have h3 := congrArg (fun v => jlookup v "remotes") heq
    simp only [] at h3
    rw [h2, hlk] at h3
    injection h3 with h4
    injection h4 with h5
    have h6 := congrArg List.length h5
    rw [(convert_skeleton c ty m w h).1] at h6
    simp at h6

theorem merge_self_duplicates_arrays_witness :
    ∃ m w, convertToForgemanifest (genDefaultManifest demoMergeD) demoMergeD "jira" =
        Except.ok (m, w) ∧
      deepmerge (manifestToJ m) (manifestToJ m) ≠ manifestToJ m := by
  refine ⟨_, _, rfl, ?_⟩
  exact (merge_self_duplicates_arrays demoMergeD "jira" _ _ rfl).2

/-- C10 counterexample: converting demoWebhooksD mutates the descriptor:
the webhook objects held by connect.modules.webhooks acquire synthetic key
properties through the array shared with the connectModules slot, so the
descriptor after conversion differs from the descriptor before. -/
theorem descriptor_mutated_counterexample :
    lookupField demoWebhooksD.modules "webhooks" =
      some (JValue.arr
        [JValue.obj [("event", JValue.str "jira:issue_updated"),
                     ("url", JValue.str "/hook/update")],
         JValue.obj [("event", JValue.str "jira:issue_deleted"),
                     ("key", JValue.str "old-key")]]) ∧
    lookupField (descriptorAfterConvert demoWebhooksD "jira").modules "webhooks" =
      some (JValue.arr
        [JValue.obj [("event", JValue.str "jira:issue_updated"),
                     ("url", JValue.str "/hook/update"),
                     ("key", JValue.str "webhook-1")],
         JValue.obj [("event", JValue.str "jira:issue_deleted"),
                     ("key", JValue.str "webhook-2")]]) ∧
    descriptorAfterConvert demoWebhooksD "jira" ≠ demoWebhooksD := by
  refine ⟨rfl, rfl, ?_⟩
  intro heq
  exact absurd (congrArg (fun d : ConnectDescriptor =>
    match lookupField d.modules "webhooks" with
    | some (JValue.arr (JValue.obj fs :: _)) => fs.length
    | _ => 0) heq) (by decide)

/-- After conversion the descriptor is either untouched or touched only in
its webhooks modules entry. -/
theorem descriptorAfterConvert_shape (c : ConnectDescriptor) (ty : String) :
    descriptorAfterConvert c ty = c ∨
    ∃ slot, descriptorAfterConvert c ty =
      { c with modules := jsInsert c.modules "webhooks" slot } := by
  cases hc : convertToForgemanifest (genDefaultManifest c) c ty with
  | error e =>
    left
    unfold descriptorAfterConvert
    rw [hc]
  | ok p =>
    obtain ⟨m, w⟩ := p
    have hred : descriptorAfterConvert c ty =
        (match lookupField c.modules "webhooks" with
         | some (JValue.arr _) =>
           (match lookupField m.connectModules (ty ++ ":webhooks") with
            | some slot2 => { c with modules := jsInsert c.modules "webhooks" slot2 }
            | none => c)
         | _ => c) := by
      unfold descriptorAfterConvert
      rw [hc]
    cases hw : lookupField c.modules "webhooks" with
    | none =>
      left
      rw [hred, hw]
    | some wv =>
      cases wv with
      | arr ws =>
        cases hslot : lookupField m.connectModules (ty ++ ":webhooks") with
        | none =>
          left
          rw [hred, hw, hslot]
        | some slot =>
          right
          exact ⟨slot, by rw [hred, hw, hslot]⟩
      | obj fs => left; rw [hred, hw]
      | str a => left; rw [hred, hw]
      | num a => left; rw [hred, hw]
      | bool a => left; rw [hred, hw]
      | null => left; rw [hred, hw]

/-- C10 amended: the engine leaves every field of the input descriptor
unchanged except the objects inside modules.webhooks: every non-webhooks
modules entry and every other descriptor field read back unchanged, while,
when modules.webhooks is an array, the descriptor ends up holding exactly
the keyed array stored in the manifest webhooks slot (the two are one
object in index.ts). -/
theorem descriptor_mutation_only_webhooks (c : ConnectDescriptor) (ty : String) :
    ((descriptorAfterConvert c ty).name = c.name ∧
     (descriptorAfterConvert c ty).key = c.key ∧
     (descriptorAfterConvert c ty).baseUrl = c.baseUrl ∧
     (descriptorAfterConvert c ty).scopes = c.scopes ∧
     (descriptorAfterConvert c ty).lifecycle = c.lifecycle ∧
     (descriptorAfterConvert c ty).translations = c.translations ∧
     (descriptorAfterConvert c ty).regionBaseUrls = c.regionBaseUrls ∧
     (descriptorAfterConvert c ty).cloudAppMigration = c.cloudAppMigration) ∧
    (∀ mt, mt ≠ "webhooks" →
      lookupField (descriptorAfterConvert c ty).modules mt = lookupField c.modules mt) ∧
    (∀ ws m w slot,
      lookupField c.modules "webhooks" = some (JValue.arr ws) →
      convertToForgemanifest (genDefaultManifest c) c ty = .ok (m, w) →
      lookupField m.connectModules (ty ++ ":webhooks") = some slot →
      lookupField (descriptorAfterConvert c ty).modules "webhooks" = some slot) := by
  refine ⟨?_, ?_, ?_⟩
  · rcases descriptorAfterConvert_shape c ty with h | ⟨slot, h⟩ <;> rw [h] <;>
      exact ⟨rfl, rfl, rfl, rfl, rfl, rfl, rfl, rfl⟩
  · intro mt hmt
    rcases descriptorAfterConvert_shape c ty with h | ⟨slot, h⟩
    · rw [h]
    · rw [h]
      exact lookupField_jsInsert_ne _ _ _ _ hmt
  · intro ws m w slot hwk hconv hslot
    have heval : descriptorAfterConvert c ty =
        { c with modules := jsInsert c.modules "webhooks" slot } := by
      unfold descriptorAfterConvert
      rw [hconv]
      show (match lookupField c.modules "webhooks" with
        | some (JValue.arr _) =>
          (match lookupField m.connectModules (ty ++ ":webhooks") with
           | some slot2 => { c with modules := jsInsert c.modules "webhooks" slot2 }
           | none => c)
        | _ => c) = _
      rw [hwk, hslot]
    rw [heval]
    exact lookupField_jsInsert_self _ _ _

theorem descriptor_mutation_only_webhooks_witness :
    lookupField (descriptorAfterConvert demoWebhooksD "jira").modules "webhooks" =
      some (JValue.arr
        [JValue.obj [("event", JValue.str "jira:issue_updated"),
                     ("url", JValue.str "/hook/update"),
                     ("key", JValue.str "webhook-1")],
         JValue.obj [("event", JValue.str "jira:issue_deleted"),
                     ("key", JValue.str "webhook-2")]]) ∧
    lookupField (descriptorAfterConvert demoWebhooksD "jira").modules "generalPages" =
      lookupField demoWebhooksD.modules "generalPages" ∧
    (descriptorAfterConvert demoWebhooksD "jira").name = demoWebhooksD.name := by
  refine ⟨?_, ?_, (descriptor_mutation_only_webhooks demoWebhooksD "jira").1.1⟩
  · exact (descriptor_mutation_only_webhooks demoWebhooksD "jira").2.2 _ _ _ _ rfl rfl rfl
  · exact (descriptor_mutation_only_webhooks demoWebhooksD "jira").2.1 "generalPages" (by decide)
